import Mathlib

/-!
# Lifecycle orchestration of colima: `app.go` and the docker adapter

A shallow embedding of `app.go` (`New`, `colimaApp.Start`, `colimaApp.Stop`,
`colimaApp.Delete`) and of `runtime/container/docker/docker.go`
(`dockerRuntime.Provision`, `dockerRuntime.Teardown`, ...).

Go code with side effects becomes explicit state passing over a world state `σ`:
a Go function returning `error` is an `Op σ`, a function from the world before
the call to the returned error (`none` is `nil`) and the world after the call.
Interfaces (`vm.Runtime`, `container.Runtime`, `runtime.HostActions`,
`runtime.GuestActions`) are records of such functions, so every theorem
quantifies over all implementations and over all outcomes of every call.
-/

namespace Colima

/-! ## Go errors -/

/-- A Go `error` value: either an error carrying only a message, or an error made by
`fmt.Errorf` with a `%w` verb, which carries its text and the error it wraps. -/
inductive GoError where
  | msg (text : String)
  | wrap (text : String) (cause : GoError)
deriving DecidableEq, Repr

namespace GoError

/-- The `Error()` method: for a wrapping error, the text, `": "` and the message of the cause. -/
def Error : GoError → String
  | msg text => text
  | wrap text cause => text ++ ": " ++ cause.Error

/-- Go's `errors.Unwrap`. -/
def Unwrap : GoError → Option GoError
  | msg _ => none
  | wrap _ cause => some cause

end GoError

/-- The call `fmt.Errorf(text + ": %w", err)`; in `app.go` every format string has this
shape, `text` being the part before the colon with its `%s` already substituted. -/
def fmt.Errorf (text : String) (err : GoError) : GoError :=
  GoError.wrap text err

/-! ## Effects -/

/-- A Go function with side effects returning a value of type `α`. -/
abbrev Eff (σ : Type) (α : Type) : Type := σ → α × σ

/-- A Go function with side effects returning `error`; `none` is `nil`. -/
abbrev Op (σ : Type) : Type := Eff σ (Option GoError)

/-- The loop `for _, x := range xs { body }` whose body never leaves the enclosing function. -/
def forRange {α σ : Type} : List α → (α → σ → σ) → σ → σ
  | [], _, s => s
  | x :: rest, body, s => forRange rest body (body x s)

/-- The loop `for _, x := range xs { body }` whose body may `return` from the enclosing
function: the body gives `some ret` to return `ret` at once and `none` to go on. -/
def forRangeReturn {α β σ : Type} : List α → (α → σ → Option β × σ) → σ → Option β × σ
  | [], _, s => (none, s)
  | x :: rest, body, s =>
    match body x s with
    | (some ret, s1) => (some ret, s1)
    | (none, s1) => forRangeReturn rest body s1

/-! ## Interfaces -/

/-- The interface `runtime.HostActions`, as far as the sources use it: `Run(args...)`. -/
structure HostActions (σ : Type) where
  Run : List String → Op σ

/-- The interface `runtime.GuestActions`, as far as `docker.go` uses it:
`Run(args...)`, `Start()` and `Stop()`. -/
structure GuestActions (σ : Type) where
  Run : List String → Op σ
  Start : Op σ
  Stop : Op σ

/-- The interface `vm.Runtime`: the lifecycle methods `app.go` calls, `Host()`,
`Dependencies()`, and the guest actions (`New` hands the same object to `docker.New`). -/
structure vm.Runtime (σ : Type) where
  Start : Op σ
  Stop : Op σ
  Teardown : Op σ
  Run : List String → Op σ
  Host : HostActions σ
  Dependencies : List String

/-- The `vm.Runtime` object seen through the interface `runtime.GuestActions`. -/
def vm.Runtime.toGuestActions {σ : Type} (g : vm.Runtime σ) : GuestActions σ :=
  { Run := g.Run, Start := g.Start, Stop := g.Stop }

/-- The interface `container.Runtime`. -/
structure container.Runtime (σ : Type) where
  Name : Eff σ String
  Provision : Op σ
  Start : Op σ
  Stop : Op σ
  Teardown : Op σ
  Dependencies : List String

/-- The struct `vm.Config`. -/
structure vm.Config where
  CPU : Int
  Disk : Int
  Memory : Int
  SSHPort : Int
  Changed : Bool
deriving DecidableEq, Repr

/-- The part of `config.Config` that `New` reads. -/
structure config.VM where
  CPU : Int
  Disk : Int
  Memory : Int
deriving DecidableEq, Repr

/-- The struct `config.Config`. -/
structure config.Config where
  VM : config.VM
deriving DecidableEq, Repr

/-! ## `app.go` -/

/-- The struct `colimaApp`. -/
structure colimaApp (σ : Type) where
  guest : vm.Runtime σ
  containers : List (container.Runtime σ)

/-- The method `colimaApp.Start`: vm start, then container provision, then container start. -/
def colimaApp.Start {σ : Type} (c : colimaApp σ) : Op σ := fun s0 =>
  -- start vm
  match c.guest.Start s0 with
  | (some err, s1) => (some (fmt.Errorf "error starting vm" err), s1)
  | (none, s1) =>
    -- provision container runtimes
    match forRangeReturn c.containers (fun cont s =>
        match cont.Provision s with
        | (some err, s) =>
          match cont.Name s with
          | (name, s) => (some (fmt.Errorf ("error provisioning " ++ name) err), s)
        | (none, s) => (none, s)) s1 with
    | (some ret, s2) => (some ret, s2)
    | (none, s2) =>
      -- start container runtimes
      match forRangeReturn c.containers (fun cont s =>
          match cont.Start s with
          | (some err, s) =>
            match cont.Name s with
            | (name, s) => (some (fmt.Errorf ("error starting " ++ name) err), s)
          | (none, s) => (none, s)) s2 with
      | (some ret, s3) => (some ret, s3)
      | (none, s3) => (none, s3)

/-- The method `colimaApp.Stop`: container stop (a failure is only printed by
`log.Println`, here the parameter `println`), then vm stop. -/
def colimaApp.Stop {σ : Type} (println : String → σ → σ) (c : colimaApp σ) : Op σ := fun s0 =>
  -- stop containers
  let s1 := forRange c.containers (fun cont s =>
    match cont.Stop s with
    | (some err, s) =>
      match cont.Name s with
      | (name, s) => println (fmt.Errorf ("error stopping " ++ name) err).Error s
    | (none, s) => s) s0
  -- stop vm
  match c.guest.Stop s1 with
  | (some err, s2) => (some (fmt.Errorf "error stopping vm" err), s2)
  | (none, s2) => (none, s2)

/-- The method `colimaApp.Delete`: container teardown (a failure is only printed by
`log.Println`, here the parameter `println`), then vm teardown. -/
def colimaApp.Delete {σ : Type} (println : String → σ → σ) (c : colimaApp σ) : Op σ := fun s0 =>
  let s1 := forRange c.containers (fun cont s =>
    match cont.Teardown s with
    | (some err, s) =>
      match cont.Name s with
      | (name, s) => println (fmt.Errorf ("error during teardown of " ++ name) err).Error s
    | (none, s) => s) s0
  match c.guest.Teardown s1 with
  | (some err, s2) => (some (fmt.Errorf "error during teardown of vm" err), s2)
  | (none, s2) => (none, s2)

/-! ## The staged task runner -/

/-- Modelled from the spec: the staged task runner (package `runner` is not among the
sources). Its state is the ordered list of `(stage label, step)` pairs together with the
label of the stage that is active for the steps enqueued next. -/
structure runner.Instance (σ : Type) where
  name : String
  stage : String
  funcs : List (String × Op σ)

/-- Modelled from the spec: `runner.New(name)`, a runner with nothing enqueued. -/
def runner.New {σ : Type} (name : String) : runner.Instance σ :=
  { name := name, stage := "", funcs := [] }

/-- Modelled from the spec: `Init()`, "initialization clears any prior queued steps". -/
def runner.Instance.Init {σ : Type} (r : runner.Instance σ) : runner.Instance σ :=
  { r with funcs := [] }

/-- Modelled from the spec: `Stage(label)`, "declaring a stage sets the label attached to
all subsequently enqueued steps until the next stage declaration". -/
def runner.Instance.Stage {σ : Type} (r : runner.Instance σ) (label : String) :
    runner.Instance σ :=
  { r with stage := label }

/-- Modelled from the spec: `Add(step)`, "enqueuing a step appends it to the end of the
current ordered list", under the label of the active stage. -/
def runner.Instance.Add {σ : Type} (r : runner.Instance σ) (f : Op σ) : runner.Instance σ :=
  { r with funcs := r.funcs ++ [(r.stage, f)] }

/-- Modelled from the spec: the error of a failed step "annotated with the label of the
stage active at the time that step was enqueued"; the annotation wraps the step's error. -/
def runner.annotate (stage : String) (err : GoError) : GoError :=
  GoError.wrap stage err

/-- Modelled from the spec: `Run()`, which "runs every enqueued step strictly in enqueue
order; on the first step that fails, execution stops immediately (no later step runs) and
the error is returned", annotated; with every step succeeding, and with zero steps, it
returns no error. -/
def runner.Instance.Run {σ : Type} (r : runner.Instance σ) : Op σ :=
  forRangeReturn r.funcs (fun sf s =>
    match sf.2 s with
    | (some err, s) => (some (runner.annotate sf.1 err), s)
    | (none, s) => (none, s))

/-! ## `runtime/container/docker/docker.go` -/

/-- The type `launchAgent`, a string. -/
abbrev docker.launchAgent : Type := String

/-- The struct `dockerRuntime`. -/
structure docker.dockerRuntime (σ : Type) where
  host : HostActions σ
  guest : GuestActions σ
  Instance : runner.Instance σ
  launchd : docker.launchAgent

/-- What `docker.go` reads of an `os.FileInfo`. -/
structure os.FileInfo where
  IsDir : Bool
deriving DecidableEq, Repr

/-- The declarations `docker.go` uses that are in other files or packages; they are
parameters of the embedding. `Stat` is `os.Stat`, `AppName` is `config.AppName()`, `File`
is the method `launchAgent.File`; the others are the provisioning steps of the adapter. -/
structure docker.Env (σ : Type) where
  AppName : String
  Stat : String → σ → Except GoError os.FileInfo
  File : docker.launchAgent → String
  setupSocketSymlink : docker.dockerRuntime σ → Op σ
  setupInVM : docker.dockerRuntime σ → Op σ
  fixUserPermission : docker.dockerRuntime σ → Op σ
  createSocketForwardingScript : Op σ
  createLaunchdScript : docker.launchAgent → Op σ

namespace docker

/-- The method `dockerRuntime.Name`. -/
def dockerRuntime.Name {σ : Type} (_d : dockerRuntime σ) : Eff σ String :=
  fun s => ("docker", s)

/-- The method `dockerRuntime.isInstalled`. -/
def dockerRuntime.isInstalled {σ : Type} (d : dockerRuntime σ) : Eff σ Bool := fun s =>
  match d.guest.Run ["command", "-v", "docker"] s with
  | (err, s) => (err == none, s)

/-- The method `dockerRuntime.isUserPermissionFixed`. -/
def dockerRuntime.isUserPermissionFixed {σ : Type} (d : dockerRuntime σ) : Eff σ Bool := fun s =>
  match d.guest.Run ["sh", "-c", "getent group docker | grep \"\\b$\x7bUSER\x7d\\b\""] s with
  | (err, s) => (err == none, s)

/-- The method `dockerRuntime.Provision` up to, and without, its last statement
`return r.Run()`: the runner as the method has filled it, and the world after the two
checks. -/
def dockerRuntime.provisionSteps {σ : Type} (env : Env σ) (d : dockerRuntime σ) :
    Eff σ (runner.Instance σ) := fun s =>
  let r := d.Instance.Init
  let r := r.Stage "provisioning"
  -- check installation
  match d.isInstalled s with
  | (installed, s) =>
    let r :=
      if !installed then
        let r := r.Stage "setting up socket"
        let r := r.Add (env.setupSocketSymlink d)
        let r := r.Stage "provisioning in VM"
        r.Add (env.setupInVM d)
      else r
    -- check user permission
    match d.isUserPermissionFixed s with
    | (fixed, s) =>
      let r :=
        if !fixed then
          let r := r.Add (env.fixUserPermission d)
          let r := r.Stage "restarting VM to complete setup"
          let r := r.Add d.guest.Stop
          r.Add d.guest.Start
        else r
      -- socket file/launchd
      let r := r.Add env.createSocketForwardingScript
      let r := r.Add (fun s => env.createLaunchdScript d.launchd s)
      (r, s)

/-- The method `dockerRuntime.Provision`. -/
def dockerRuntime.Provision {σ : Type} (env : Env σ) (d : dockerRuntime σ) : Op σ := fun s =>
  match d.provisionSteps env s with
  | (r, s) => r.Run s

/-- The method `dockerRuntime.Start`. -/
def dockerRuntime.Start {σ : Type} (env : Env σ) (d : dockerRuntime σ) : Op σ := fun s =>
  let r := d.Instance.Init
  let r := r.Stage "starting"
  let r := r.Add (fun s => d.guest.Run ["sudo", "service", "docker", "start"] s)
  let r := r.Add (fun s => d.host.Run ["launchctl", "load", env.File d.launchd] s)
  r.Run s

/-- The method `dockerRuntime.Stop`. -/
def dockerRuntime.Stop {σ : Type} (env : Env σ) (d : dockerRuntime σ) : Op σ := fun s =>
  let r := d.Instance.Init
  let r := r.Stage "stopping"
  let r := r.Add (fun s => d.guest.Run ["service", "docker", "status"] s)
  let r := r.Add (fun s => d.host.Run ["launchctl", "unload", env.File d.launchd] s)
  r.Run s

/-- The method `dockerRuntime.Teardown` up to, and without, its last statement
`return r.Run()`: the runner as the method has filled it. -/
def dockerRuntime.teardownSteps {σ : Type} (env : Env σ) (d : dockerRuntime σ) (s : σ) :
    runner.Instance σ :=
  let r := d.Instance.Init
  let r := r.Stage "teardown"
  match env.Stat (env.File d.launchd) s with
  | Except.ok stat =>
    if !stat.IsDir then
      r.Add (fun s => d.host.Run ["launchctl", "unload", env.File d.launchd] s)
    else r
  | Except.error _ => r

/-- The method `dockerRuntime.Teardown`. -/
def dockerRuntime.Teardown {σ : Type} (env : Env σ) (d : dockerRuntime σ) : Op σ := fun s =>
  (d.teardownSteps env s).Run s

/-- The method `dockerRuntime.Dependencies`. -/
def dockerRuntime.Dependencies {σ : Type} (_d : dockerRuntime σ) : List String :=
  ["docker"]

/-- The struct `dockerRuntime` seen through the interface `container.Runtime`. -/
def dockerRuntime.toRuntime {σ : Type} (env : Env σ) (d : dockerRuntime σ) :
    container.Runtime σ :=
  { Name := d.Name
    Provision := d.Provision env
    Start := d.Start env
    Stop := d.Stop env
    Teardown := d.Teardown env
    Dependencies := d.Dependencies }

/-- The function `docker.New`. -/
def New {σ : Type} (env : Env σ) (host : HostActions σ) (guest : GuestActions σ) :
    container.Runtime σ :=
  let launchdPkg := "com.abiosoft." ++ env.AppName
  dockerRuntime.toRuntime env
    { host := host
      guest := guest
      Instance := runner.New "docker"
      launchd := launchdPkg }

end docker

/-! ## Construction -/

/-- The declarations `New` of `app.go` uses that are in other packages; they are
parameters of the embedding. `SSHPort` is `config.SSHPort()`, `hostNew` is `host.New()`,
`vmNew` is `vm.New`, and `IsInstalled` is `host.IsInstalled`, which sees of its argument
(an interface with the one method `Dependencies()`) the list of dependencies. -/
structure Env (σ : Type) where
  SSHPort : Int
  hostNew : HostActions σ
  vmNew : HostActions σ → vm.Config → vm.Runtime σ
  IsInstalled : List String → Op σ
  docker : docker.Env σ

/-- The function `New` of `app.go`; the two results are the `App` (`none` is `nil`) and
the `error`. -/
def New {σ : Type} (env : Env σ) (c : config.Config) :
    Eff σ (Option (colimaApp σ) × Option GoError) := fun s =>
  let vmConfig : vm.Config :=
    { CPU := c.VM.CPU
      Disk := c.VM.Disk
      Memory := c.VM.Memory
      SSHPort := env.SSHPort
      Changed := false }
  let guest := env.vmNew env.hostNew vmConfig
  match env.IsInstalled guest.Dependencies s with
  | (some err, s) => ((none, some (fmt.Errorf "dependency check failed for VM" err)), s)
  | (none, s) =>
    let dockerRuntime := docker.New env.docker guest.Host guest.toGuestActions
    match env.IsInstalled dockerRuntime.Dependencies s with
    | (some err, s) => ((none, some (fmt.Errorf "dependency check failed for docker" err)), s)
    | (none, s) => ((some { guest := guest, containers := [dockerRuntime] }, none), s)

/-! ## Observing invocations

To speak about which methods are invoked and in which order, the objects are wrapped
the way a test double wraps them: the world carries a log, and a wrapped method appends
its own event to the log on entry and then runs the method it wraps. -/

/-- One invocation of a method of a collaborator. Container runtimes are named by their
index in `colimaApp.containers`. -/
inductive Call where
  | vmStart
  | vmStop
  | vmTeardown
  | vmRun (args : List String)
  | hostRun (args : List String)
  | name (i : Nat)
  | provision (i : Nat)
  | start (i : Nat)
  | stop (i : Nat)
  | teardown (i : Nat)
  | isInstalled (deps : List String)
deriving DecidableEq, Repr

/-- A world with a log of invocations. -/
structure Rec (σ : Type) where
  st : σ
  log : List Call

/-- Wrap a method so that it logs the event `c` when it is invoked. -/
def record {σ α : Type} (c : Call) (op : Eff (Rec σ) α) : Eff (Rec σ) α :=
  fun w => op { st := w.st, log := w.log ++ [c] }

/-- A method of a world without log, seen on the world with log: it leaves the log alone. -/
def lift {σ α : Type} (op : Eff σ α) : Eff (Rec σ) α :=
  fun w => ((op w.st).1, { st := (op w.st).2, log := w.log })

/-- A host whose `Run` is logged. -/
def recordHost {σ : Type} (h : HostActions (Rec σ)) : HostActions (Rec σ) :=
  { Run := fun args => record (Call.hostRun args) (h.Run args) }

/-- A host on the world with log. -/
def liftHost {σ : Type} (h : HostActions σ) : HostActions (Rec σ) :=
  { Run := fun args => lift (h.Run args) }

/-- A guest VM whose methods are logged. -/
def recordVM {σ : Type} (g : vm.Runtime (Rec σ)) : vm.Runtime (Rec σ) :=
  { Start := record Call.vmStart g.Start
    Stop := record Call.vmStop g.Stop
    Teardown := record Call.vmTeardown g.Teardown
    Run := fun args => record (Call.vmRun args) (g.Run args)
    Host := recordHost g.Host
    Dependencies := g.Dependencies }

/-- A guest VM on the world with log. -/
def liftVM {σ : Type} (g : vm.Runtime σ) : vm.Runtime (Rec σ) :=
  { Start := lift g.Start
    Stop := lift g.Stop
    Teardown := lift g.Teardown
    Run := fun args => lift (g.Run args)
    Host := liftHost g.Host
    Dependencies := g.Dependencies }

/-- The container runtime at index `i` with its methods logged. -/
def recordRuntime {σ : Type} (i : Nat) (r : container.Runtime (Rec σ)) :
    container.Runtime (Rec σ) :=
  { Name := record (Call.name i) r.Name
    Provision := record (Call.provision i) r.Provision
    Start := record (Call.start i) r.Start
    Stop := record (Call.stop i) r.Stop
    Teardown := record (Call.teardown i) r.Teardown
    Dependencies := r.Dependencies }

/-- A container runtime on the world with log. -/
def liftRuntime {σ : Type} (r : container.Runtime σ) : container.Runtime (Rec σ) :=
  { Name := lift r.Name
    Provision := lift r.Provision
    Start := lift r.Start
    Stop := lift r.Stop
    Teardown := lift r.Teardown
    Dependencies := r.Dependencies }

/-- The runtimes of a list with their methods logged, the first one under index `i`. -/
def recordAll {σ : Type} : Nat → List (container.Runtime (Rec σ)) → List (container.Runtime (Rec σ))
  | _, [] => []
  | i, r :: rs => recordRuntime i r :: recordAll (i + 1) rs

/-- The orchestrator `c` with every method of its guest VM and of its container runtimes
logged: the log then holds the invocations the orchestrator makes, in order. -/
def observe {σ : Type} (c : colimaApp σ) : colimaApp (Rec σ) :=
  { guest := recordVM (liftVM c.guest)
    containers := recordAll 0 (c.containers.map liftRuntime) }

/-- The world after the operations `ops` were invoked one after another from `s`. -/
def stateAfter {σ : Type} : List (Op σ) → σ → σ
  | [], s => s
  | op :: ops, s => stateAfter ops (op s).2

/-- The error returned by the `i`-th of the operations `ops` when they are invoked one
after another from `s` (`none` when there is no `i`-th operation). -/
def nthOutcome {σ : Type} : List (Op σ) → σ → Nat → Option (Option GoError)
  | [], _, _ => none
  | op :: _, s, 0 => some (op s).1
  | op :: ops, s, i + 1 => nthOutcome ops (op s).2 i

/-- The body of the two loops of `colimaApp.Start`, with the method `sel` that the loop
calls and the text `text` of its error as parameters. -/
def failFast {σ : Type} (sel : container.Runtime σ → Op σ) (text : String)
    (cont : container.Runtime σ) : Eff σ (Option GoError) := fun s =>
  match sel cont s with
  | (some err, s) =>
    match cont.Name s with
    | (name, s) => (some (fmt.Errorf (text ++ name) err), s)
  | (none, s) => (none, s)

/-- The body of the loops of `colimaApp.Stop` and `colimaApp.Delete`, with the method `sel`
that the loop calls and the text `text` of the printed error as parameters. -/
def bestEffort {σ : Type} (println : String → σ → σ) (sel : container.Runtime σ → Op σ)
    (text : String) (cont : container.Runtime σ) : σ → σ := fun s =>
  match sel cont s with
  | (some err, s) =>
    match cont.Name s with
    | (name, s) => println (fmt.Errorf (text ++ name) err).Error s
  | (none, s) => s

/-- The function behind `log.Println` on the world with log. -/
def liftPrint {σ : Type} (println : String → σ → σ) : String → Rec σ → Rec σ :=
  fun line w => { st := println line w.st, log := w.log }

/-- Whether an event is the invocation of a `Name()` method. -/
def Call.isName : Call → Bool
  | Call.name _ => true
  | _ => false

/-- The guest VM's `Start` is invoked exactly once, and that invocation comes strictly
before every invocation of a container runtime's `Provision` or `Start`. -/
def VMStartOnceAndFirst (log : List Call) : Prop :=
  log.count Call.vmStart = 1 ∧
  ∀ a b i : Nat, log[a]? = some Call.vmStart →
    (log[b]? = some (Call.provision i) ∨ log[b]? = some (Call.start i)) → a < b

/-- Every invocation of a container runtime's `Provision` comes before every invocation of
a container runtime's `Start`. -/
def ProvisionsBeforeStarts (log : List Call) : Prop :=
  ∀ a b i j : Nat, log[a]? = some (Call.provision i) → log[b]? = some (Call.start j) → a < b

/-! ## Concrete collaborators

Small implementations of the interfaces, used to run the code on concrete inputs. -/

/-- The outcome of a call that fails when `fails` is set. -/
def outcome (fails : Bool) (text : String) : Option GoError :=
  if fails then some (GoError.msg text) else none

/-- A container runtime whose methods count their invocations in the world and fail as
the flags say. -/
def stubRuntime (name : String) (provisionFails startFails stopFails teardownFails : Bool) :
    container.Runtime Nat :=
  { Name := fun s => (name, s + 1)
    Provision := fun s => (outcome provisionFails (name ++ " cannot provision"), s + 1)
    Start := fun s => (outcome startFails (name ++ " cannot start"), s + 1)
    Stop := fun s => (outcome stopFails (name ++ " cannot stop"), s + 1)
    Teardown := fun s => (outcome teardownFails (name ++ " cannot teardown"), s + 1)
    Dependencies := [name] }

/-- A guest VM whose methods count their invocations in the world and fail as the flags
say. -/
def stubVM (startFails stopFails teardownFails : Bool) : vm.Runtime Nat :=
  { Start := fun s => (outcome startFails "vm cannot start", s + 1)
    Stop := fun s => (outcome stopFails "vm cannot stop", s + 1)
    Teardown := fun s => (outcome teardownFails "vm cannot teardown", s + 1)
    Run := fun _ s => (none, s + 1)
    Host := { Run := fun _ s => (none, s + 1) }
    Dependencies := ["lima"] }

/-- Guest VM starts; runtimes `[A, B]`, where `A.Provision` fails. -/
def appProvisionFails : colimaApp Nat :=
  { guest := stubVM false false false
    containers := [stubRuntime "A" true false false false,
      stubRuntime "B" false false false false] }

/-- Guest VM starts; runtimes `[A, B]`, where both provision and `B.Start` fails. -/
def appStartFails : colimaApp Nat :=
  { guest := stubVM false false false
    containers := [stubRuntime "A" false false false false,
      stubRuntime "B" false true false false] }

/-- Guest VM and runtimes `[A, B]`, where no call fails. -/
def appHealthy : colimaApp Nat :=
  { guest := stubVM false false false
    containers := [stubRuntime "A" false false false false,
      stubRuntime "B" false false false false] }

/-- Guest VM that starts, and no container runtime. -/
def appNoRuntimes : colimaApp Nat :=
  { guest := stubVM false false false
    containers := [] }

/-- Guest VM whose `Start` fails; runtimes `[A, B]`. -/
def appVMStartFails : colimaApp Nat :=
  { guest := stubVM true false false
    containers := [stubRuntime "A" false false false false,
      stubRuntime "B" false false false false] }

/-- Runtimes `[A, B]`, where `B.Stop` and `B.Teardown` fail; the guest VM stops and tears
down. -/
def appSecondStopFails : colimaApp Nat :=
  { guest := stubVM false false false
    containers := [stubRuntime "A" false false false false,
      stubRuntime "B" false false true true] }

/-- A `log.Println` for examples: printing is counted in the world. -/
def stubPrintln : String → Nat → Nat :=
  fun _ s => s + 1

/-- The state of a guest for examples: whether the docker engine is installed in it and
whether the operating user is in the docker group. -/
structure Guest where
  dockerInstalled : Bool
  userAuthorized : Bool
deriving DecidableEq, Repr

/-- A guest VM for examples: its lifecycle methods succeed, and its `Run` answers the two
checks of the docker adapter from the state of the guest. -/
def guestVM : vm.Runtime Guest :=
  { Start := fun s => (none, s)
    Stop := fun s => (none, s)
    Teardown := fun s => (none, s)
    Run := fun args s =>
      match args with
      | ["command", "-v", "docker"] => (outcome (!s.dockerInstalled) "exit status 1", s)
      | "sh" :: "-c" :: _ => (outcome (!s.userAuthorized) "exit status 1", s)
      | _ => (none, s)
    Host := { Run := fun _ s => (none, s) }
    Dependencies := ["lima"] }

/-- The steps of the docker adapter for examples: the in-VM setup installs the engine, the
permission fix authorizes the user, the other steps do nothing; there is no launch-agent
file. -/
def guestDockerEnv : docker.Env (Rec Guest) :=
  { AppName := "colima"
    Stat := fun _ _ => Except.error (GoError.msg "no such file or directory")
    File := fun l => "Library/LaunchAgents/" ++ l ++ ".plist"
    setupSocketSymlink := fun _ => lift (fun s => (none, s))
    setupInVM := fun _ => lift (fun s => (none, { s with dockerInstalled := true }))
    fixUserPermission := fun _ => lift (fun s => (none, { s with userAuthorized := true }))
    createSocketForwardingScript := lift (fun s => (none, s))
    createLaunchdScript := fun _ => lift (fun s => (none, s)) }

/-- The same steps, with a launch-agent file that exists and is not a directory. -/
def guestDockerEnvLoaded : docker.Env (Rec Guest) :=
  { guestDockerEnv with Stat := fun _ _ => Except.ok { IsDir := false } }

/-- The docker adapter that `docker.New` makes for the logged guest VM `guestVM`. -/
def guestDocker : docker.dockerRuntime (Rec Guest) :=
  { host := (recordVM (liftVM guestVM)).Host
    guest := (recordVM (liftVM guestVM)).toGuestActions
    Instance := runner.New "docker"
    launchd := "com.abiosoft.colima" }

/-- The orchestrator as `New` builds it: the guest VM `guestVM` and the docker adapter made
by `docker.New` from the host of that guest and that same guest; every method of the guest
and of the adapter is logged. -/
def guestDockerApp : colimaApp (Rec Guest) :=
  let guest := recordVM (liftVM guestVM)
  { guest := guest
    containers := recordAll 0 [docker.New guestDockerEnv guest.Host guest.toGuestActions] }

/-- The collaborators of `New` for examples. -/
def guestEnv : Env (Rec Guest) :=
  { SSHPort := 41122
    hostNew := liftHost guestVM.Host
    vmNew := fun _ _ => liftVM guestVM
    IsInstalled := fun _ => lift (fun s => (none, s))
    docker := guestDockerEnv }

/-- A dependency check for examples that always succeeds. -/
def checkPasses : List String → Op Guest :=
  fun _ s => (none, s)

/-- A configuration for examples. -/
def guestConfig : config.Config :=
  { VM := { CPU := 2, Disk := 60, Memory := 4 } }

end Colima

/-! ## Lemmas on the loops -/

namespace Colima

section Loops

variable {σ : Type}

theorem start_unfold (c : colimaApp σ) (s0 : σ) :
    c.Start s0 =
      match c.guest.Start s0 with
      | (some err, s1) => (some (fmt.Errorf "error starting vm" err), s1)
      | (none, s1) =>
        match forRangeReturn c.containers
            (failFast (fun r => r.Provision) "error provisioning ") s1 with
        | (some ret, s2) => (some ret, s2)
        | (none, s2) =>
          forRangeReturn c.containers (failFast (fun r => r.Start) "error starting ") s2 := by
  have hP : (fun (cont : container.Runtime σ) (s : σ) =>
      match cont.Provision s with
      | (some err, s) =>
        match cont.Name s with
        | (name, s) => (some (fmt.Errorf ("error provisioning " ++ name) err), s)
      | (none, s) => (none, s)) = failFast (fun r => r.Provision) "error provisioning " := rfl
  have hS : (fun (cont : container.Runtime σ) (s : σ) =>
      match cont.Start s with
      | (some err, s) =>
        match cont.Name s with
        | (name, s) => (some (fmt.Errorf ("error starting " ++ name) err), s)
      | (none, s) => (none, s)) = failFast (fun r => r.Start) "error starting " := rfl
  unfold colimaApp.Start
  rw [hP, hS]
  rcases c.guest.Start s0 with ⟨_ | err, s1⟩
  · dsimp only
    rcases forRangeReturn c.containers
        (failFast (fun r => r.Provision) "error provisioning ") s1 with ⟨_ | ret, s2⟩
    · dsimp only
      rcases forRangeReturn c.containers
          (failFast (fun r => r.Start) "error starting ") s2 with ⟨_ | ret, s3⟩ <;> rfl
    · rfl
  · rfl

/-- When every call succeeds, the loop with early return calls the method of every
runtime, in list order, and goes on after the loop. -/
theorem failFast_loop_ok (sel : container.Runtime (Rec σ) → Op (Rec σ))
    (sel0 : container.Runtime σ → Op σ) (ev : Nat → Call) (text : String)
    (hsel : ∀ i r, sel (recordRuntime i (liftRuntime r)) = record (ev i) (lift (sel0 r))) :
    ∀ (rs : List (container.Runtime σ)) (j : Nat) (s : σ) (log : List Call),
      (∀ i, i < rs.length → nthOutcome (rs.map sel0) s i = some none) →
      forRangeReturn (recordAll j (rs.map liftRuntime)) (failFast sel text)
          { st := s, log := log } =
        (none, { st := stateAfter (rs.map sel0) s,
                 log := log ++ (List.range' j rs.length).map ev }) := by
  intro rs
  induction rs with
  | nil => intro j s log _; simp [recordAll, forRangeReturn, stateAfter]
  | cons r rs ih =>
    intro j s log h
    have h0 : (sel0 r s).1 = none := by
      have := h 0 (by simp)
      simpa [nthOutcome] using this
    have ht : ∀ i, i < rs.length → nthOutcome (rs.map sel0) (sel0 r s).2 i = some none := by
      intro i hi
      have := h (i + 1) (by simpa using hi)
      simpa [nthOutcome] using this
    simp only [List.map_cons, recordAll, forRangeReturn, failFast, hsel, record, lift, h0]
    rw [ih (j + 1) (sel0 r s).2 (log ++ [ev j]) ht]
    simp [stateAfter, List.range'_succ]

/-- When the call at index `k` is the first one that fails, the loop with early return
calls the method of the runtimes `0..k` in list order, then `Name()` of runtime `k`, and
returns the error of that call wrapped under the text and the name. -/
theorem failFast_loop_fail (sel : container.Runtime (Rec σ) → Op (Rec σ))
    (sel0 : container.Runtime σ → Op σ) (ev : Nat → Call) (text : String)
    (hsel : ∀ i r, sel (recordRuntime i (liftRuntime r)) = record (ev i) (lift (sel0 r))) :
    ∀ (rs : List (container.Runtime σ)) (k j : Nat) (s : σ) (log : List Call)
      (r : container.Runtime σ) (e : GoError),
      rs[k]? = some r →
      (∀ i, i < k → nthOutcome (rs.map sel0) s i = some none) →
      nthOutcome (rs.map sel0) s k = some (some e) →
      forRangeReturn (recordAll j (rs.map liftRuntime)) (failFast sel text)
          { st := s, log := log } =
        (some (fmt.Errorf (text ++ (r.Name (stateAfter ((rs.map sel0).take (k + 1)) s)).1) e),
         { st := (r.Name (stateAfter ((rs.map sel0).take (k + 1)) s)).2,
           log := log ++ (List.range' j (k + 1)).map ev ++ [Call.name (j + k)] }) := by
  intro rs
  induction rs with
  | nil => intro k j s log r e hr; simp at hr
  | cons r0 rs ih =>
    intro k j s log r e hr hok hfail
    cases k with
    | zero =>
      have hr0 : r0 = r := by simpa using hr
      subst hr0
      have h0 : (sel0 r0 s).1 = some e := by simpa [nthOutcome] using hfail
      simp only [List.map_cons, recordAll, forRangeReturn, failFast, hsel, record, lift, h0]
      simp [recordRuntime, liftRuntime, record, lift, stateAfter]
    | succ k =>
      have h0 : (sel0 r0 s).1 = none := by
        have := hok 0 (by omega)
        simpa [nthOutcome] using this
      have hr1 : rs[k]? = some r := by simpa using hr
      have hok1 : ∀ i, i < k → nthOutcome (rs.map sel0) (sel0 r0 s).2 i = some none := by
        intro i hi
        have := hok (i + 1) (by omega)
        simpa [nthOutcome] using this
      have hfail1 : nthOutcome (rs.map sel0) (sel0 r0 s).2 k = some (some e) := by
        simpa [nthOutcome] using hfail
      simp only [List.map_cons, recordAll, forRangeReturn, failFast, hsel, record, lift, h0]
      rw [ih k (j + 1) (sel0 r0 s).2 (log ++ [ev j]) r e hr1 hok1 hfail1]
      have hidx : j + 1 + k = j + (k + 1) := by omega
      simp [stateAfter, List.range'_succ, hidx]

/-- In every execution, the loop with early return only appends to the log, and what it
appends are invocations of the method it calls and of `Name()`. -/
theorem failFast_loop_log (sel : container.Runtime (Rec σ) → Op (Rec σ))
    (sel0 : container.Runtime σ → Op σ) (ev : Nat → Call) (text : String)
    (hsel : ∀ i r, sel (recordRuntime i (liftRuntime r)) = record (ev i) (lift (sel0 r))) :
    ∀ (rs : List (container.Runtime σ)) (j : Nat) (s : σ) (log : List Call),
      ∃ ext, (forRangeReturn (recordAll j (rs.map liftRuntime)) (failFast sel text)
          { st := s, log := log }).2.log = log ++ ext ∧
        ∀ c ∈ ext, (∃ i, c = ev i) ∨ (∃ i, c = Call.name i) := by
  intro rs
  induction rs with
  | nil => intro j s log; exact ⟨[], by simp [recordAll, forRangeReturn]⟩
  | cons r rs ih =>
    intro j s log
    cases h0 : (sel0 r s).1 with
    | none =>
      obtain ⟨ext, hext, hall⟩ := ih (j + 1) (sel0 r s).2 (log ++ [ev j])
      refine ⟨ev j :: ext, ?_, ?_⟩
      · simp only [List.map_cons, recordAll, forRangeReturn, failFast, hsel, record, lift, h0]
        rw [hext]
        simp
      · intro c hc
        rcases List.mem_cons.mp hc with hc | hc
        · exact Or.inl ⟨j, hc⟩
        · exact hall c hc
    | some e =>
      refine ⟨[ev j, Call.name j], ?_, ?_⟩
      · simp only [List.map_cons, recordAll, forRangeReturn, failFast, hsel, record, lift, h0]
        simp [recordRuntime, liftRuntime, record, lift]
      · intro c hc
        simp only [List.mem_cons, List.mem_singleton, List.not_mem_nil, or_false] at hc
        rcases hc with hc | hc
        · exact Or.inl ⟨j, hc⟩
        · exact Or.inr ⟨j, hc⟩

/-- The loop without early return calls the method of every runtime, in list order,
whatever the calls return; between these calls it only calls `Name()`. On the world
without log it does what the loop over the unobserved runtimes does. -/
theorem bestEffort_loop (println : String → σ → σ)
    (sel : container.Runtime (Rec σ) → Op (Rec σ))
    (sel0 : container.Runtime σ → Op σ) (ev : Nat → Call) (text : String)
    (hsel : ∀ i r, sel (recordRuntime i (liftRuntime r)) = record (ev i) (lift (sel0 r)))
    (hev : ∀ i, (ev i).isName = false) :
    ∀ (rs : List (container.Runtime σ)) (j : Nat) (s : σ) (log : List Call),
      ∃ ext, forRange (recordAll j (rs.map liftRuntime))
          (bestEffort (liftPrint println) sel text) { st := s, log := log } =
          { st := forRange rs (bestEffort println sel0 text) s, log := log ++ ext } ∧
        ext.filter (fun c => !c.isName) = (List.range' j rs.length).map ev := by
  intro rs
  induction rs with
  | nil => intro j s log; exact ⟨[], by simp [recordAll, forRange]⟩
  | cons r rs ih =>
    intro j s log
    cases h0 : (sel0 r s).1 with
    | none =>
      have hb : bestEffort println sel0 text r s = (sel0 r s).2 := by
        unfold bestEffort
        rcases hx : sel0 r s with ⟨res, s1⟩
        rw [hx] at h0
        simp only at h0
        subst h0
        rfl
      obtain ⟨ext, hext, hfil⟩ := ih (j + 1) (sel0 r s).2 (log ++ [ev j])
      refine ⟨ev j :: ext, ?_, ?_⟩
      · simp only [List.map_cons, recordAll, forRange, bestEffort, hsel, record, lift, h0]
        rw [hext, ← hb]
        simp [bestEffort]
      · simp [List.filter_cons, hev, hfil, List.range'_succ]
    | some e =>
      have hb : bestEffort println sel0 text r s =
          println (fmt.Errorf (text ++ (r.Name (sel0 r s).2).1) e).Error
            (r.Name (sel0 r s).2).2 := by
        unfold bestEffort
        rcases hx : sel0 r s with ⟨res, s1⟩
        rw [hx] at h0
        simp only at h0
        subst h0
        rfl
      obtain ⟨ext, hext, hfil⟩ := ih (j + 1)
        (println (fmt.Errorf (text ++ (r.Name (sel0 r s).2).1) e).Error (r.Name (sel0 r s).2).2)
        (log ++ [ev j, Call.name j])
      refine ⟨ev j :: Call.name j :: ext, ?_, ?_⟩
      · rw [show forRange (r :: rs) (bestEffort println sel0 text) s =
            forRange rs (bestEffort println sel0 text) (bestEffort println sel0 text r s)
          from rfl, hb]
        simp only [List.map_cons, recordAll, forRange, bestEffort, hsel, record, lift, h0]
        simp only [recordRuntime, liftRuntime, record, lift, liftPrint, List.append_assoc,
          List.singleton_append]
        simp only [List.append_assoc, List.cons_append, List.nil_append] at hext
        rw [hext]
      · have hn : (Call.name j).isName = true := rfl
        simp [List.filter_cons, hev, hn, hfil, List.range'_succ]

/-- Two events that lie in different parts of a log are in the order of the parts. -/
theorem order_of_split (A B : List Call) (x y : Call) (hx : x ∉ B) (hy : y ∉ A) (a b : Nat)
    (ha : (A ++ B)[a]? = some x) (hb : (A ++ B)[b]? = some y) : a < b := by
  have h1 : a < A.length := by
    by_contra hlt
    rw [List.getElem?_append_right (Nat.le_of_not_lt hlt)] at ha
    exact hx (List.getElem?_mem ha)
  have h2 : A.length ≤ b := by
    by_contra hlt
    rw [List.getElem?_append_left (Nat.lt_of_not_le hlt)] at hb
    exact hy (List.getElem?_mem hb)
  omega

theorem observe_guest_start (c : colimaApp σ) (s : σ) (log : List Call) :
    (observe c).guest.Start { st := s, log := log } =
      ((c.guest.Start s).1, { st := (c.guest.Start s).2, log := log ++ [Call.vmStart] }) := rfl

theorem observe_containers (c : colimaApp σ) :
    (observe c).containers = recordAll 0 (c.containers.map liftRuntime) := rfl

theorem sel_provision (i : Nat) (r : container.Runtime σ) :
    (fun r : container.Runtime (Rec σ) => r.Provision) (recordRuntime i (liftRuntime r)) =
      record (Call.provision i) (lift ((fun r : container.Runtime σ => r.Provision) r)) := rfl

theorem sel_start (i : Nat) (r : container.Runtime σ) :
    (fun r : container.Runtime (Rec σ) => r.Start) (recordRuntime i (liftRuntime r)) =
      record (Call.start i) (lift ((fun r : container.Runtime σ => r.Start) r)) := rfl

/-- The shape of the log of every execution of `Start`: the VM start, then invocations
of `Provision` and `Name`, then invocations of `Start` and `Name`. -/
theorem start_log_shape (c : colimaApp σ) (s : σ) :
    ∃ P S, ((observe c).Start { st := s, log := [] }).2.log = [Call.vmStart] ++ P ++ S ∧
      (∀ x ∈ P, (∃ i, x = Call.provision i) ∨ (∃ i, x = Call.name i)) ∧
      (∀ x ∈ S, (∃ i, x = Call.start i) ∨ (∃ i, x = Call.name i)) := by
  rw [start_unfold, observe_guest_start, observe_containers]
  cases hvm : (c.guest.Start s).1 with
  | some e => exact ⟨[], [], by simp, by simp, by simp⟩
  | none =>
    dsimp only
    obtain ⟨P, hP, hPall⟩ := failFast_loop_log (fun r => r.Provision) (fun r => r.Provision)
      Call.provision "error provisioning " sel_provision c.containers 0 (c.guest.Start s).2
      ([] ++ [Call.vmStart])
    rcases hloop : forRangeReturn (recordAll 0 (c.containers.map liftRuntime))
        (failFast (fun r => r.Provision) "error provisioning ")
        { st := (c.guest.Start s).2, log := [] ++ [Call.vmStart] } with ⟨_ | ret, w⟩
    · rw [hloop] at hP
      dsimp only at hP ⊢
      obtain ⟨S, hS, hSall⟩ := failFast_loop_log (fun r => r.Start) (fun r => r.Start)
        Call.start "error starting " sel_start c.containers 0 w.st w.log
      refine ⟨P, S, ?_, hPall, hSall⟩
      rw [show w = { st := w.st, log := w.log } from rfl, hS, hP]
      simp
    · rw [hloop] at hP
      dsimp only at hP ⊢
      exact ⟨P, [], by simpa using hP, hPall, by simp⟩

end Loops

end Colima

/-! ## The orchestrator: `Start` -/

namespace Colima

section Start

variable {σ : Type}

/-- Claim C1, as amended: the orchestrator's `Start` itself invokes the guest VM's `Start` exactly
once, as its first invocation (the log begins with it and every later event is an
invocation of a container runtime's `Provision`, `Start` or `Name`), so that it comes
strictly before every invocation of a container runtime's `Provision` or `Start`. The log
is that of the invocations `colimaApp.Start` makes; what a runtime's `Provision` invokes in
turn is inside the runtime and not counted. -/
theorem start_invokes_vm_start_once_first (c : colimaApp σ) (s : σ) :
    ((observe c).Start { st := s, log := [] }).2.log.head? = some Call.vmStart ∧
    (∃ rest, ((observe c).Start { st := s, log := [] }).2.log = Call.vmStart :: rest ∧
      ∀ x ∈ rest, (∃ i, x = Call.provision i) ∨ (∃ i, x = Call.start i) ∨
        (∃ i, x = Call.name i)) ∧
    VMStartOnceAndFirst ((observe c).Start { st := s, log := [] }).2.log := by
  obtain ⟨P, S, hlog, hP, hS⟩ := start_log_shape c s
  refine ⟨by rw [hlog]; rfl, ⟨P ++ S, by rw [hlog]; rfl, ?_⟩, ?_⟩
  · intro x hx
    rcases List.mem_append.mp hx with h | h
    · rcases hP x h with hp | hn
      · exact Or.inl hp
      · exact Or.inr (Or.inr hn)
    · rcases hS x h with hs | hn
      · exact Or.inr (Or.inl hs)
      · exact Or.inr (Or.inr hn)
  have hnot : Call.vmStart ∉ P ++ S := by
    intro hmem
    rcases List.mem_append.mp hmem with h | h
    · rcases hP _ h with ⟨i, hi⟩ | ⟨i, hi⟩ <;> cases hi
    · rcases hS _ h with ⟨i, hi⟩ | ⟨i, hi⟩ <;> cases hi
  rw [hlog, List.append_assoc]
  refine ⟨?_, ?_⟩
  · rw [List.count_append, List.count_eq_zero_of_not_mem hnot]
    simp
  · intro a b i ha hb
    rcases hb with hb | hb
    · exact order_of_split [Call.vmStart] (P ++ S) Call.vmStart (Call.provision i) hnot
        (by simp) a b ha hb
    · exact order_of_split [Call.vmStart] (P ++ S) Call.vmStart (Call.start i) hnot
        (by simp) a b ha hb

/-- Claim C2: if the guest VM's `Start` returns the error `e`, then `colimaApp.Start` invokes
the VM start and nothing else (no `Provision`, `Start`, `Stop`, `Teardown` or `Name` of
any container runtime), and returns the error `error starting vm: ...` that wraps `e`. -/
theorem start_vm_failure (c : colimaApp σ) (s : σ) (e : GoError)
    (hvm : (c.guest.Start s).1 = some e) :
    ((observe c).Start { st := s, log := [] }).1 = some (fmt.Errorf "error starting vm" e) ∧
    ((observe c).Start { st := s, log := [] }).1.bind GoError.Unwrap = some e ∧
    ((observe c).Start { st := s, log := [] }).1.map GoError.Error =
      some ("error starting vm: " ++ e.Error) ∧
    ((observe c).Start { st := s, log := [] }).2.log = [Call.vmStart] := by
  rw [start_unfold, observe_guest_start, hvm]
  simp [fmt.Errorf, GoError.Unwrap, GoError.Error]

/-- Claim C2 on a concrete input: the guest VM's `Start` fails, with runtimes `[A, B]`. -/
theorem start_vm_failure_witness :
    ((appVMStartFails.guest.Start 0).1 = some (GoError.msg "vm cannot start")) ∧
    (((observe appVMStartFails).Start { st := 0, log := [] }).1 =
        some (fmt.Errorf "error starting vm" (GoError.msg "vm cannot start")) ∧
      ((observe appVMStartFails).Start { st := 0, log := [] }).1.bind GoError.Unwrap =
        some (GoError.msg "vm cannot start") ∧
      ((observe appVMStartFails).Start { st := 0, log := [] }).1.map GoError.Error =
        some ("error starting vm: " ++ (GoError.msg "vm cannot start").Error) ∧
      ((observe appVMStartFails).Start { st := 0, log := [] }).2.log = [Call.vmStart]) :=
  ⟨rfl, start_vm_failure appVMStartFails 0 (GoError.msg "vm cannot start") rfl⟩

/-- Claim C3: when the VM start succeeds and `k` is the first index whose `Provision` fails, with
error `e`, `colimaApp.Start` invokes `Provision` once on each of the runtimes `0..k` in list
order, then `Name` of runtime `k`, and nothing else after the VM start (no `Provision` of
a later runtime, no `Start` of any runtime); it returns the error
`error provisioning <name of runtime k>: ...` that wraps `e`. -/
theorem start_provision_failure (c : colimaApp σ) (s : σ) (k : Nat)
    (r : container.Runtime σ) (e : GoError)
    (hvm : (c.guest.Start s).1 = none)
    (hr : c.containers[k]? = some r)
    (hok : ∀ i, i < k →
      nthOutcome (c.containers.map (fun r => r.Provision)) (c.guest.Start s).2 i = some none)
    (hfail :
      nthOutcome (c.containers.map (fun r => r.Provision)) (c.guest.Start s).2 k =
        some (some e)) :
    ((observe c).Start { st := s, log := [] }).1 =
      some (fmt.Errorf ("error provisioning " ++ (r.Name (stateAfter
        ((c.containers.map (fun r => r.Provision)).take (k + 1)) (c.guest.Start s).2)).1) e) ∧
    ((observe c).Start { st := s, log := [] }).1.bind GoError.Unwrap = some e ∧
    ((observe c).Start { st := s, log := [] }).1.map GoError.Error =
      some ("error provisioning " ++ (r.Name (stateAfter
        ((c.containers.map (fun r => r.Provision)).take (k + 1)) (c.guest.Start s).2)).1 ++
        ": " ++ e.Error) ∧
    ((observe c).Start { st := s, log := [] }).2.log =
      [Call.vmStart] ++ (List.range (k + 1)).map Call.provision ++ [Call.name k] := by
  rw [start_unfold, observe_guest_start, observe_containers, hvm]
  dsimp only
  rw [failFast_loop_fail (fun r => r.Provision) (fun r => r.Provision) Call.provision
    "error provisioning " sel_provision c.containers k 0 (c.guest.Start s).2
    ([] ++ [Call.vmStart]) r e hr hok hfail]
  simp [List.range_eq_range', fmt.Errorf, GoError.Unwrap, GoError.Error]

/-- Claim C3 on a concrete input: runtimes `[A, B]` with `A.Provision` failing. -/
theorem start_provision_failure_witness :
    ((appProvisionFails.guest.Start 0).1 = none ∧
      appProvisionFails.containers[0]? = some (stubRuntime "A" true false false false) ∧
      (∀ i, i < 0 → nthOutcome (appProvisionFails.containers.map (fun r => r.Provision))
        (appProvisionFails.guest.Start 0).2 i = some none) ∧
      nthOutcome (appProvisionFails.containers.map (fun r => r.Provision))
        (appProvisionFails.guest.Start 0).2 0 = some (some (GoError.msg "A cannot provision"))) ∧
    (((observe appProvisionFails).Start { st := 0, log := [] }).1 =
        some (fmt.Errorf "error provisioning A" (GoError.msg "A cannot provision")) ∧
      ((observe appProvisionFails).Start { st := 0, log := [] }).1.map GoError.Error =
        some "error provisioning A: A cannot provision" ∧
      ((observe appProvisionFails).Start { st := 0, log := [] }).2.log =
        [Call.vmStart, Call.provision 0, Call.name 0]) :=
  have h := start_provision_failure appProvisionFails 0 0
    (stubRuntime "A" true false false false) (GoError.msg "A cannot provision")
    rfl rfl (fun _ hi => absurd hi (Nat.not_lt_zero _)) rfl
  ⟨⟨rfl, rfl, fun _ hi => absurd hi (Nat.not_lt_zero _), rfl⟩, h.1, h.2.2.1, h.2.2.2⟩

/-- Claim C4: `colimaApp.Start` makes two passes that are not interleaved. In every execution
every invocation of `Provision` comes before every invocation of `Start`. When the VM
start, every `Provision` and every `Start` succeed, the invocations are exactly the VM
start, `Provision` of the runtimes `0..n-1`, `Start` of the runtimes `0..n-1`, and no error
is returned. With zero runtimes the only invocation is the VM start, and no error is
returned when it succeeds. -/
theorem start_two_passes (c : colimaApp σ) (s : σ) :
    ProvisionsBeforeStarts ((observe c).Start { st := s, log := [] }).2.log ∧
    ((c.guest.Start s).1 = none →
      (∀ i, i < c.containers.length →
        nthOutcome (c.containers.map (fun r => r.Provision)) (c.guest.Start s).2 i =
          some none) →
      (∀ i, i < c.containers.length →
        nthOutcome (c.containers.map (fun r => r.Start))
          (stateAfter (c.containers.map (fun r => r.Provision)) (c.guest.Start s).2) i =
          some none) →
      ((observe c).Start { st := s, log := [] }).1 = none ∧
      ((observe c).Start { st := s, log := [] }).2.log =
        [Call.vmStart] ++ (List.range c.containers.length).map Call.provision ++
          (List.range c.containers.length).map Call.start) ∧
    (c.containers = [] →
      ((observe c).Start { st := s, log := [] }).2.log = [Call.vmStart] ∧
      ((c.guest.Start s).1 = none → ((observe c).Start { st := s, log := [] }).1 = none)) := by
  refine ⟨?_, ?_, ?_⟩
  · obtain ⟨P, S, hlog, hP, hS⟩ := start_log_shape c s
    rw [hlog]
    intro a b i j ha hb
    refine order_of_split ([Call.vmStart] ++ P) S (Call.provision i) (Call.start j) ?_ ?_
      a b ha hb
    · intro hmem
      rcases hS _ hmem with ⟨i, hi⟩ | ⟨i, hi⟩ <;> cases hi
    · intro hmem
      rcases List.mem_append.mp hmem with h | h
      · simp at h
      · rcases hP _ h with ⟨i, hi⟩ | ⟨i, hi⟩ <;> cases hi
  · intro hvm hprov hstart
    rw [start_unfold, observe_guest_start, observe_containers, hvm]
    dsimp only
    rw [failFast_loop_ok (fun r => r.Provision) (fun r => r.Provision) Call.provision
      "error provisioning " sel_provision c.containers 0 (c.guest.Start s).2
      ([] ++ [Call.vmStart]) hprov]
    dsimp only
    rw [failFast_loop_ok (fun r => r.Start) (fun r => r.Start) Call.start
      "error starting " sel_start c.containers 0 _ _ hstart]
    simp [List.range_eq_range']
  · intro hnil
    rw [start_unfold, observe_guest_start, observe_containers, hnil]
    cases hvm : (c.guest.Start s).1 with
    | some e => simp
    | none => simp [recordAll, forRangeReturn]

/-- Claim C4 on concrete inputs: runtimes `[A, B]` and no failing call; no runtime at all. -/
theorem start_two_passes_witness :
    ((appHealthy.guest.Start 0).1 = none ∧
      (∀ i, i < appHealthy.containers.length →
        nthOutcome (appHealthy.containers.map (fun r => r.Provision))
          (appHealthy.guest.Start 0).2 i = some none) ∧
      (∀ i, i < appHealthy.containers.length →
        nthOutcome (appHealthy.containers.map (fun r => r.Start))
          (stateAfter (appHealthy.containers.map (fun r => r.Provision))
            (appHealthy.guest.Start 0).2) i = some none)) ∧
    (((observe appHealthy).Start { st := 0, log := [] }).1 = none ∧
      ((observe appHealthy).Start { st := 0, log := [] }).2.log =
        [Call.vmStart, Call.provision 0, Call.provision 1, Call.start 0, Call.start 1]) ∧
    (appNoRuntimes.containers = [] ∧ (appNoRuntimes.guest.Start 0).1 = none) ∧
    (((observe appNoRuntimes).Start { st := 0, log := [] }).2.log = [Call.vmStart] ∧
      ((observe appNoRuntimes).Start { st := 0, log := [] }).1 = none) :=
  have h1 : (appHealthy.guest.Start 0).1 = none := rfl
  have h2 : ∀ i, i < appHealthy.containers.length →
      nthOutcome (appHealthy.containers.map (fun r => r.Provision))
        (appHealthy.guest.Start 0).2 i = some none := by decide
  have h3 : ∀ i, i < appHealthy.containers.length →
      nthOutcome (appHealthy.containers.map (fun r => r.Start))
        (stateAfter (appHealthy.containers.map (fun r => r.Provision))
          (appHealthy.guest.Start 0).2) i = some none := by decide
  have h4 := (start_two_passes appNoRuntimes 0).2.2 rfl
  ⟨⟨h1, h2, h3⟩, (start_two_passes appHealthy 0).2.1 h1 h2 h3, ⟨rfl, rfl⟩, h4.1, h4.2 rfl⟩

/-- Claim C5: when the VM start and every `Provision` succeed and `k` is the first index
whose `Start` fails, with error `e`, `colimaApp.Start` has invoked `Provision` on all `n`
runtimes, invokes `Start` once on each of the runtimes `0..k` in list order, then `Name`
of runtime `k`, and no `Start` of a later runtime; it returns the error
`error starting <name of runtime k>: ...` that wraps `e`. -/
theorem start_start_failure (c : colimaApp σ) (s : σ) (k : Nat)
    (r : container.Runtime σ) (e : GoError)
    (hvm : (c.guest.Start s).1 = none)
    (hprov : ∀ i, i < c.containers.length →
      nthOutcome (c.containers.map (fun r => r.Provision)) (c.guest.Start s).2 i = some none)
    (hr : c.containers[k]? = some r)
    (hok : ∀ i, i < k →
      nthOutcome (c.containers.map (fun r => r.Start))
        (stateAfter (c.containers.map (fun r => r.Provision)) (c.guest.Start s).2) i =
        some none)
    (hfail :
      nthOutcome (c.containers.map (fun r => r.Start))
        (stateAfter (c.containers.map (fun r => r.Provision)) (c.guest.Start s).2) k =
        some (some e)) :
    ((observe c).Start { st := s, log := [] }).1 =
      some (fmt.Errorf ("error starting " ++ (r.Name (stateAfter
        ((c.containers.map (fun r => r.Start)).take (k + 1))
        (stateAfter (c.containers.map (fun r => r.Provision)) (c.guest.Start s).2))).1) e) ∧
    ((observe c).Start { st := s, log := [] }).1.bind GoError.Unwrap = some e ∧
    ((observe c).Start { st := s, log := [] }).1.map GoError.Error =
      some ("error starting " ++ (r.Name (stateAfter
        ((c.containers.map (fun r => r.Start)).take (k + 1))
        (stateAfter (c.containers.map (fun r => r.Provision)) (c.guest.Start s).2))).1 ++
        ": " ++ e.Error) ∧
    ((observe c).Start { st := s, log := [] }).2.log =
      [Call.vmStart] ++ (List.range c.containers.length).map Call.provision ++
        (List.range (k + 1)).map Call.start ++ [Call.name k] := by
  rw [start_unfold, observe_guest_start, observe_containers, hvm]
  dsimp only
  rw [failFast_loop_ok (fun r => r.Provision) (fun r => r.Provision) Call.provision
    "error provisioning " sel_provision c.containers 0 (c.guest.Start s).2
    ([] ++ [Call.vmStart]) hprov]
  dsimp only
  rw [failFast_loop_fail (fun r => r.Start) (fun r => r.Start) Call.start
    "error starting " sel_start c.containers k 0 _ _ r e hr hok hfail]
  simp [List.range_eq_range', fmt.Errorf, GoError.Unwrap, GoError.Error]

/-- Claim C5 on a concrete input: runtimes `[A, B]` with `B.Start` failing. -/
theorem start_start_failure_witness :
    ((appStartFails.guest.Start 0).1 = none ∧
      (∀ i, i < appStartFails.containers.length →
        nthOutcome (appStartFails.containers.map (fun r => r.Provision))
          (appStartFails.guest.Start 0).2 i = some none) ∧
      appStartFails.containers[1]? = some (stubRuntime "B" false true false false) ∧
      (∀ i, i < 1 →
        nthOutcome (appStartFails.containers.map (fun r => r.Start))
          (stateAfter (appStartFails.containers.map (fun r => r.Provision))
            (appStartFails.guest.Start 0).2) i = some none) ∧
      nthOutcome (appStartFails.containers.map (fun r => r.Start))
        (stateAfter (appStartFails.containers.map (fun r => r.Provision))
          (appStartFails.guest.Start 0).2) 1 = some (some (GoError.msg "B cannot start"))) ∧
    (((observe appStartFails).Start { st := 0, log := [] }).1 =
        some (fmt.Errorf "error starting B" (GoError.msg "B cannot start")) ∧
      ((observe appStartFails).Start { st := 0, log := [] }).1.map GoError.Error =
        some "error starting B: B cannot start" ∧
      ((observe appStartFails).Start { st := 0, log := [] }).2.log =
        [Call.vmStart, Call.provision 0, Call.provision 1, Call.start 0, Call.start 1,
          Call.name 1]) :=
  have h1 : (appStartFails.guest.Start 0).1 = none := rfl
  have h2 : ∀ i, i < appStartFails.containers.length →
      nthOutcome (appStartFails.containers.map (fun r => r.Provision))
        (appStartFails.guest.Start 0).2 i = some none := by decide
  have h3 : appStartFails.containers[1]? = some (stubRuntime "B" false true false false) := rfl
  have h4 : ∀ i, i < 1 →
      nthOutcome (appStartFails.containers.map (fun r => r.Start))
        (stateAfter (appStartFails.containers.map (fun r => r.Provision))
          (appStartFails.guest.Start 0).2) i = some none := by decide
  have h5 : nthOutcome (appStartFails.containers.map (fun r => r.Start))
      (stateAfter (appStartFails.containers.map (fun r => r.Provision))
        (appStartFails.guest.Start 0).2) 1 = some (some (GoError.msg "B cannot start")) := rfl
  have h := start_start_failure appStartFails 0 1 (stubRuntime "B" false true false false)
    (GoError.msg "B cannot start") h1 h2 h3 h4 h5
  ⟨⟨h1, h2, h3, h4, h5⟩, h.1, h.2.2.1, h.2.2.2⟩

end Start

end Colima

/-! ## The orchestrator: `Stop` and `Delete` -/

namespace Colima

section StopDelete

variable {σ : Type}

theorem stop_unfold (println : String → σ → σ) (c : colimaApp σ) (s0 : σ) :
    c.Stop println s0 =
      match c.guest.Stop
          (forRange c.containers (bestEffort println (fun r => r.Stop) "error stopping ") s0) with
      | (some err, s2) => (some (fmt.Errorf "error stopping vm" err), s2)
      | (none, s2) => (none, s2) := rfl

theorem delete_unfold (println : String → σ → σ) (c : colimaApp σ) (s0 : σ) :
    c.Delete println s0 =
      match c.guest.Teardown
          (forRange c.containers
            (bestEffort println (fun r => r.Teardown) "error during teardown of ") s0) with
      | (some err, s2) => (some (fmt.Errorf "error during teardown of vm" err), s2)
      | (none, s2) => (none, s2) := rfl

theorem sel_stop (i : Nat) (r : container.Runtime σ) :
    (fun r : container.Runtime (Rec σ) => r.Stop) (recordRuntime i (liftRuntime r)) =
      record (Call.stop i) (lift ((fun r : container.Runtime σ => r.Stop) r)) := rfl

theorem sel_teardown (i : Nat) (r : container.Runtime σ) :
    (fun r : container.Runtime (Rec σ) => r.Teardown) (recordRuntime i (liftRuntime r)) =
      record (Call.teardown i) (lift ((fun r : container.Runtime σ => r.Teardown) r)) := rfl

theorem observe_guest_stop (c : colimaApp σ) (s : σ) (log : List Call) :
    (observe c).guest.Stop { st := s, log := log } =
      ((c.guest.Stop s).1, { st := (c.guest.Stop s).2, log := log ++ [Call.vmStop] }) := rfl

theorem observe_guest_teardown (c : colimaApp σ) (s : σ) (log : List Call) :
    (observe c).guest.Teardown { st := s, log := log } =
      ((c.guest.Teardown s).1,
        { st := (c.guest.Teardown s).2, log := log ++ [Call.vmTeardown] }) := rfl

/-- Claim C6: whatever the `Stop` calls of the container runtimes return, `colimaApp.Stop`
invokes `Stop` once on every runtime, in list order (between these calls it only invokes
`Name`, for the message it prints), and then, as its last invocation, the guest VM's `Stop`
once. What it returns depends on the VM's `Stop` alone: `nil` when that returns `nil`,
and the error `error stopping vm: ...` wrapping the VM's error otherwise. -/
theorem stop_best_effort (println : String → σ → σ) (c : colimaApp σ) (s : σ) :
    (((observe c).Stop (liftPrint println) { st := s, log := [] }).2.log.filter
        (fun x => !x.isName) =
      (List.range c.containers.length).map Call.stop ++ [Call.vmStop]) ∧
    ((observe c).Stop (liftPrint println) { st := s, log := [] }).2.log.getLast? =
      some Call.vmStop ∧
    ((observe c).Stop (liftPrint println) { st := s, log := [] }).1 =
      (c.guest.Stop (forRange c.containers
        (bestEffort println (fun r => r.Stop) "error stopping ") s)).1.map
        (fmt.Errorf "error stopping vm") ∧
    ((observe c).Stop (liftPrint println) { st := s, log := [] }).1.bind GoError.Unwrap =
      (c.guest.Stop (forRange c.containers
        (bestEffort println (fun r => r.Stop) "error stopping ") s)).1 ∧
    ((observe c).Stop (liftPrint println) { st := s, log := [] }).1.map GoError.Error =
      (c.guest.Stop (forRange c.containers
        (bestEffort println (fun r => r.Stop) "error stopping ") s)).1.map
        (fun e => "error stopping vm: " ++ e.Error) := by
  obtain ⟨ext, hext, hfil⟩ := bestEffort_loop println (fun r => r.Stop) (fun r => r.Stop)
    Call.stop "error stopping " sel_stop (fun _ => rfl) c.containers 0 s []
  rw [stop_unfold, observe_containers, hext, observe_guest_stop]
  cases (c.guest.Stop (forRange c.containers
      (bestEffort println (fun r => r.Stop) "error stopping ") s)).1 with
  | none =>
    have hv : Call.vmStop.isName = false := rfl
    simp [List.filter_append, hfil, hv, List.range_eq_range']
  | some e =>
    have hv : Call.vmStop.isName = false := rfl
    simp [List.filter_append, hfil, hv, List.range_eq_range', fmt.Errorf, GoError.Unwrap,
      GoError.Error]

/-- Claim C7: whatever the `Teardown` calls of the container runtimes return, `colimaApp.Delete`
invokes `Teardown` once on every runtime, in list order (between these calls it only
invokes `Name`, for the message it prints), and then, as its last invocation, the guest
VM's `Teardown` once. What it returns depends on the VM's `Teardown` alone: `nil` when
that returns `nil`, and the error `error during teardown of vm: ...` wrapping the VM's
error otherwise. -/
theorem delete_best_effort (println : String → σ → σ) (c : colimaApp σ) (s : σ) :
    (((observe c).Delete (liftPrint println) { st := s, log := [] }).2.log.filter
        (fun x => !x.isName) =
      (List.range c.containers.length).map Call.teardown ++ [Call.vmTeardown]) ∧
    ((observe c).Delete (liftPrint println) { st := s, log := [] }).2.log.getLast? =
      some Call.vmTeardown ∧
    ((observe c).Delete (liftPrint println) { st := s, log := [] }).1 =
      (c.guest.Teardown (forRange c.containers
        (bestEffort println (fun r => r.Teardown) "error during teardown of ") s)).1.map
        (fmt.Errorf "error during teardown of vm") ∧
    ((observe c).Delete (liftPrint println) { st := s, log := [] }).1.bind GoError.Unwrap =
      (c.guest.Teardown (forRange c.containers
        (bestEffort println (fun r => r.Teardown) "error during teardown of ") s)).1 ∧
    ((observe c).Delete (liftPrint println) { st := s, log := [] }).1.map GoError.Error =
      (c.guest.Teardown (forRange c.containers
        (bestEffort println (fun r => r.Teardown) "error during teardown of ") s)).1.map
        (fun e => "error during teardown of vm: " ++ e.Error) := by
  obtain ⟨ext, hext, hfil⟩ := bestEffort_loop println (fun r => r.Teardown)
    (fun r => r.Teardown) Call.teardown "error during teardown of " sel_teardown
    (fun _ => rfl) c.containers 0 s []
  rw [delete_unfold, observe_containers, hext, observe_guest_teardown]
  cases (c.guest.Teardown (forRange c.containers
      (bestEffort println (fun r => r.Teardown) "error during teardown of ") s)).1 with
  | none =>
    have hv : Call.vmTeardown.isName = false := rfl
    simp [List.filter_append, hfil, hv, List.range_eq_range']
  | some e =>
    have hv : Call.vmTeardown.isName = false := rfl
    simp [List.filter_append, hfil, hv, List.range_eq_range', fmt.Errorf, GoError.Unwrap,
      GoError.Error]

/-- The scenario of two runtimes of which the second's `Stop` fails while the VM stops:
both `Stop` calls occur, the VM stop is invoked, and `Stop` returns `nil`. -/
theorem stop_scenario_second_fails :
    (appSecondStopFails.containers.map (fun r => (r.Stop 0).1) =
      [none, some (GoError.msg "B cannot stop")]) ∧
    (observe appSecondStopFails).Stop (liftPrint stubPrintln) { st := 0, log := [] } =
      (none, { st := 5, log := [Call.stop 0, Call.stop 1, Call.name 1, Call.vmStop] }) :=
  ⟨rfl, rfl⟩

/-- The scenario of two runtimes of which the second's `Teardown` fails: both `Teardown`
calls occur, the VM teardown is invoked, and `Delete` returns `nil`. -/
theorem delete_scenario_second_fails :
    (appSecondStopFails.containers.map (fun r => (r.Teardown 0).1) =
      [none, some (GoError.msg "B cannot teardown")]) ∧
    (observe appSecondStopFails).Delete (liftPrint stubPrintln) { st := 0, log := [] } =
      (none,
        { st := 5, log := [Call.teardown 0, Call.teardown 1, Call.name 1, Call.vmTeardown] }) :=
  ⟨rfl, rfl⟩

end StopDelete

end Colima

/-! ## The docker adapter -/

namespace Colima

section Docker

variable {σ : Type}

/-- Claim C1, as stated, fails: with the docker adapter built on the same guest object and a
user who is not yet in the docker group, `Provision` enqueues and runs a VM stop and a VM
start, so the guest VM's `Start` is invoked twice during one `colimaApp.Start`, the second
time after `Provision` was invoked. -/
theorem start_docker_restarts_vm :
    (guestDockerApp.Start
      { st := { dockerInstalled := true, userAuthorized := false }, log := [] }).1 = none ∧
    (guestDockerApp.Start
      { st := { dockerInstalled := true, userAuthorized := false }, log := [] }).2.log =
      [Call.vmStart, Call.provision 0,
        Call.vmRun ["command", "-v", "docker"],
        Call.vmRun ["sh", "-c", "getent group docker | grep \"\\b$\x7bUSER\x7d\\b\""],
        Call.vmStop, Call.vmStart,
        Call.start 0,
        Call.vmRun ["sudo", "service", "docker", "start"],
        Call.hostRun ["launchctl", "load", "Library/LaunchAgents/com.abiosoft.colima.plist"]] ∧
    ¬ VMStartOnceAndFirst (guestDockerApp.Start
      { st := { dockerInstalled := true, userAuthorized := false }, log := [] }).2.log := by
  have hlog : (guestDockerApp.Start
      { st := { dockerInstalled := true, userAuthorized := false }, log := [] }).2.log =
      [Call.vmStart, Call.provision 0,
        Call.vmRun ["command", "-v", "docker"],
        Call.vmRun ["sh", "-c", "getent group docker | grep \"\\b$\x7bUSER\x7d\\b\""],
        Call.vmStop, Call.vmStart,
        Call.start 0,
        Call.vmRun ["sudo", "service", "docker", "start"],
        Call.hostRun ["launchctl", "load", "Library/LaunchAgents/com.abiosoft.colima.plist"]] :=
    rfl
  refine ⟨rfl, hlog, ?_⟩
  intro h
  have hcount := h.1
  rw [hlog] at hcount
  exact absurd hcount (by decide)

/-- Claim C8, as stated, fails: with the engine installed and the user authorized, `Provision`
still enqueues two steps before it executes the pipeline. -/
theorem provision_satisfied_still_enqueues :
    (guestDocker.isInstalled
      { st := { dockerInstalled := true, userAuthorized := true }, log := [] }).1 = true ∧
    (guestDocker.isUserPermissionFixed
      { st := { dockerInstalled := true, userAuthorized := true }, log := [] }).1 = true ∧
    (guestDocker.provisionSteps guestDockerEnv
      { st := { dockerInstalled := true, userAuthorized := true }, log := [] }).1.funcs.length
      = 2 ∧
    (guestDocker.provisionSteps guestDockerEnv
      { st := { dockerInstalled := true, userAuthorized := true }, log := [] }).1.funcs ≠ [] := by
  refine ⟨rfl, rfl, rfl, ?_⟩
  intro h
  have hlen := congrArg List.length h
  exact absurd hlen (by decide)

/-- Claim C8, as amended: for every outcome of the two checks made at call time, the steps
`Provision` enqueues are, in this order: the socket symlink setup and the in-VM setup iff
the engine is not installed; the permission fix, the VM stop and the VM start iff the user
is not authorized; and, in every case, the creation of the socket forwarding script and of
the launchd script. Whatever the runner held before the call is not among them. -/
theorem provision_enqueues (env : docker.Env σ) (d : docker.dockerRuntime σ) (s : σ) :
    (d.provisionSteps env s).1.funcs.map Prod.snd =
      (if (d.isInstalled s).1 then []
        else [env.setupSocketSymlink d, env.setupInVM d]) ++
      (if (d.isUserPermissionFixed (d.isInstalled s).2).1 then []
        else [env.fixUserPermission d, d.guest.Stop, d.guest.Start]) ++
      [env.createSocketForwardingScript, fun s => env.createLaunchdScript d.launchd s] := by
  unfold docker.dockerRuntime.provisionSteps
  rcases d.isInstalled s with ⟨installed, s1⟩
  dsimp only
  rcases d.isUserPermissionFixed s1 with ⟨fixed, s2⟩
  cases installed <;> cases fixed <;>
    simp [runner.Instance.Add, runner.Instance.Init, runner.Instance.Stage]

/-- Claim C9: `Teardown` removes the host-side integration only if it is present. If `os.Stat`
of the launch-agent file fails or the file is a directory, `Teardown` enqueues no step,
issues no host command, leaves the world as it is and returns `nil`. If the file exists and
is not a directory, it enqueues exactly one step, the host command
`launchctl unload <file>`, runs it once, and returns `nil` when the step returns `nil` and
the step's error under the stage label `teardown` otherwise. Whatever the runner held
before the call is not run. -/
theorem teardown_only_if_present (env : docker.Env (Rec σ)) (d : docker.dockerRuntime (Rec σ))
    (h : HostActions σ) (s : σ) (log : List Call) :
    ((({ d with host := recordHost (liftHost h) } : docker.dockerRuntime (Rec σ)).teardownSteps
        env { st := s, log := log }).funcs =
      if (match env.Stat (env.File d.launchd) { st := s, log := log } with
          | Except.ok stat => !stat.IsDir
          | Except.error _ => false)
      then [("teardown", fun w => (recordHost (liftHost h)).Run
        ["launchctl", "unload", env.File d.launchd] w)]
      else []) ∧
    (({ d with host := recordHost (liftHost h) } : docker.dockerRuntime (Rec σ)).Teardown
        env { st := s, log := log } =
      if (match env.Stat (env.File d.launchd) { st := s, log := log } with
          | Except.ok stat => !stat.IsDir
          | Except.error _ => false)
      then ((h.Run ["launchctl", "unload", env.File d.launchd] s).1.map
          (runner.annotate "teardown"),
        { st := (h.Run ["launchctl", "unload", env.File d.launchd] s).2,
          log := log ++ [Call.hostRun ["launchctl", "unload", env.File d.launchd]] })
      else (none, { st := s, log := log })) := by
  unfold docker.dockerRuntime.Teardown docker.dockerRuntime.teardownSteps
  rcases env.Stat (env.File d.launchd) { st := s, log := log } with err | stat
  · simp [runner.Instance.Init, runner.Instance.Stage, runner.Instance.Run, forRangeReturn]
  · cases hdir : stat.IsDir
    · cases hrun : (h.Run ["launchctl", "unload", env.File d.launchd] s).1 <;>
        simp [runner.Instance.Init, runner.Instance.Stage, runner.Instance.Add,
          runner.Instance.Run, forRangeReturn, recordHost, liftHost, record, lift, hrun, hdir]
    · simp [runner.Instance.Init, runner.Instance.Stage, runner.Instance.Run, forRangeReturn,
        hdir]

/-- The two cases of `Teardown` on concrete inputs: without a launch-agent file nothing is
enqueued or run and `nil` is returned; with the file one host command is run. -/
theorem teardown_scenarios :
    (guestDocker.teardownSteps guestDockerEnv
      { st := { dockerInstalled := true, userAuthorized := true }, log := [] }).funcs.length
      = 0 ∧
    guestDocker.Teardown guestDockerEnv
      { st := { dockerInstalled := true, userAuthorized := true }, log := [] } =
      (none, { st := { dockerInstalled := true, userAuthorized := true }, log := [] }) ∧
    (guestDocker.teardownSteps guestDockerEnvLoaded
      { st := { dockerInstalled := true, userAuthorized := true }, log := [] }).funcs.length
      = 1 ∧
    guestDocker.Teardown guestDockerEnvLoaded
      { st := { dockerInstalled := true, userAuthorized := true }, log := [] } =
      (none, { st := { dockerInstalled := true, userAuthorized := true },
               log := [Call.hostRun ["launchctl", "unload",
                 "Library/LaunchAgents/com.abiosoft.colima.plist"]] }) :=
  ⟨rfl, rfl, rfl, rfl⟩

end Docker

end Colima

/-! ## Construction -/

namespace Colima

section Construction

variable {σ : Type}

/-- Claim C10: `New` is all-or-nothing on the two dependency checks. It checks the VM first; if
that check fails with `e`, the docker check is not run and `New` returns a `nil` App with
the error `dependency check failed for VM: ...` wrapping `e`. Otherwise it checks the docker
runtime; if that check fails with `e`, `New` returns a `nil` App with the error
`dependency check failed for docker: ...` wrapping `e`. If both checks succeed, `New`
returns, with a `nil` error, the App that holds the guest VM made by `vm.New` and the list
of exactly the one docker runtime made by `docker.New` from that guest. `New` returns an
App with a `nil` error iff both checks succeed, and never both an App and an error. -/
theorem new_all_or_nothing (env : Env (Rec σ)) (check : List String → Op σ)
    (c : config.Config) (s : σ) :
    let guest := env.vmNew env.hostNew
      { CPU := c.VM.CPU, Disk := c.VM.Disk, Memory := c.VM.Memory,
        SSHPort := env.SSHPort, Changed := false }
    let r := New { env with
      IsInstalled := fun deps => record (Call.isInstalled deps) (lift (check deps)) } c
      { st := s, log := [] }
    (∀ e, (check guest.Dependencies s).1 = some e →
      r.1 = (none, some (fmt.Errorf "dependency check failed for VM" e)) ∧
      r.2.log = [Call.isInstalled guest.Dependencies] ∧
      r.1.2.bind GoError.Unwrap = some e ∧
      r.1.2.map GoError.Error = some ("dependency check failed for VM: " ++ e.Error)) ∧
    (∀ e, (check guest.Dependencies s).1 = none →
      (check ["docker"] (check guest.Dependencies s).2).1 = some e →
      r.1 = (none, some (fmt.Errorf "dependency check failed for docker" e)) ∧
      r.2.log = [Call.isInstalled guest.Dependencies, Call.isInstalled ["docker"]] ∧
      r.1.2.bind GoError.Unwrap = some e ∧
      r.1.2.map GoError.Error = some ("dependency check failed for docker: " ++ e.Error)) ∧
    ((check guest.Dependencies s).1 = none →
      (check ["docker"] (check guest.Dependencies s).2).1 = none →
      r.1 = (some { guest := guest,
                    containers := [docker.New env.docker guest.Host guest.toGuestActions] },
             none) ∧
      r.2.log = [Call.isInstalled guest.Dependencies, Call.isInstalled ["docker"]]) ∧
    ((r.1.1.isSome = true ∧ r.1.2 = none) ↔
      ((check guest.Dependencies s).1 = none ∧
        (check ["docker"] (check guest.Dependencies s).2).1 = none)) ∧
    (r.1.1.isSome = true ↔ r.1.2 = none) := by
  intro guest r
  have hdeps : (docker.New env.docker guest.Host guest.toGuestActions).Dependencies =
      ["docker"] := rfl
  cases h1 : (check guest.Dependencies s).1 with
  | some e1 =>
    have hr : r = ((none, some (fmt.Errorf "dependency check failed for VM" e1)),
        { st := (check guest.Dependencies s).2, log := [Call.isInstalled guest.Dependencies] }) := by
      simp only [r, New, record, lift]
      simp [guest, h1]
    rw [hr]
    simp [fmt.Errorf, GoError.Unwrap, GoError.Error]
  | none =>
    cases h2 : (check ["docker"] (check guest.Dependencies s).2).1 with
    | some e2 =>
      have hr : r = ((none, some (fmt.Errorf "dependency check failed for docker" e2)),
          { st := (check ["docker"] (check guest.Dependencies s).2).2,
            log := [Call.isInstalled guest.Dependencies, Call.isInstalled ["docker"]] }) := by
        simp only [r, New, record, lift]
        simp [guest, h1, hdeps, h2]
      rw [hr]
      simp [fmt.Errorf, GoError.Unwrap, GoError.Error]
    | none =>
      have hr : r = ((some { guest := guest,
                             containers :=
                               [docker.New env.docker guest.Host guest.toGuestActions] },
                      none),
          { st := (check ["docker"] (check guest.Dependencies s).2).2,
            log := [Call.isInstalled guest.Dependencies, Call.isInstalled ["docker"]] }) := by
        simp only [r, New, record, lift]
        simp [guest, h1, hdeps, h2]
      rw [hr]
      simp

/-- Claim C10 on a concrete input: both dependency checks succeed. -/
theorem new_all_or_nothing_witness :
    ((checkPasses (liftVM guestVM).Dependencies
        { dockerInstalled := false, userAuthorized := false }).1 = none ∧
      (checkPasses ["docker"] (checkPasses (liftVM guestVM).Dependencies
        { dockerInstalled := false, userAuthorized := false }).2).1 = none) ∧
    ((New { guestEnv with
          IsInstalled := fun deps => record (Call.isInstalled deps) (lift (checkPasses deps)) }
        guestConfig
        { st := { dockerInstalled := false, userAuthorized := false }, log := [] }).1 =
      (some { guest := liftVM guestVM,
              containers := [docker.New guestDockerEnv (liftVM guestVM).Host
                (liftVM guestVM).toGuestActions] },
       none) ∧
     (New { guestEnv with
          IsInstalled := fun deps => record (Call.isInstalled deps) (lift (checkPasses deps)) }
        guestConfig
        { st := { dockerInstalled := false, userAuthorized := false }, log := [] }).2.log =
      [Call.isInstalled ["lima"], Call.isInstalled ["docker"]]) :=
  ⟨⟨rfl, rfl⟩,
    (new_all_or_nothing guestEnv checkPasses guestConfig
      { dockerInstalled := false, userAuthorized := false }).2.2.1 rfl rfl⟩

end Construction

end Colima
